import Mathlib

/-!
Verification development for the Langchain_101 repository.

The shallow embedding below models the three source files:

* `src/1_Fundamentals/business_advisor_lcel.py` — a linear LCEL pipeline
  (idea generation → analysis → structured report) with a module-level
  audit log fed by a `RunnableParallel` tee, two key-bridging lambdas,
  and a pydantic `AnalysisReport` schema with list-of-string fields that
  default to the empty list.
* `src/1_Fundamentals/prompt_routing_langGraph.py` — a LangGraph routing
  starter whose routing logic is absent from the source (the file only
  holds imports and the exercise statement); the router is modelled from
  the specification.
* `src/2_Tools_and_RAG/ecohome_solution/agent.py` — the `Agent.invoke`
  message construction and `Judge.evaluate_tool_usage` precision/recall
  computation.

The model endpoint is out of scope in the source (a black-box remote
call), so it is a parameter (`Oracle`) of the pipeline: one function for
free-text generation (`llm` piped into `StrOutputParser`) and one for the
structured-output call (`llm.with_structured_output(AnalysisReport)`),
whose raw response is validated against the schema.  Side effects of the
Python code — the append to the module-level `logs` list and the outbound
model invocations — are made explicit by threading a `PipeState` that
records the audit log and an event trace.
-/

set_option autoImplicit false

namespace Langchain101

/-- Errors the pipeline can surface, following the spec's taxonomy in §7:
template rendering failures, transport failures from the model endpoint,
schema validation failures, and a Python `KeyError` raised by the
key-bridging lambdas when their source key is absent. -/
inductive PipelineError where
  | templateRenderError
  | endpointError
  | schemaViolation
  | keyError
  deriving DecidableEq, Repr

/-- A raw chat-model response (`AIMessage` in the source): the audit log
stores these raw objects, while `StrOutputParser` extracts `content`. -/
structure Message where
  content : String
  deriving DecidableEq, Repr

/-- Values stored in the dicts threaded between chain links: strings
(prompt inputs and parsed outputs) and Python's `None` (the return value
of `logs.append`). -/
inductive Val where
  | vstr (s : String)
  | vnone
  deriving DecidableEq, Repr

/-- The dict threaded between chain links (`PipelineState` in the spec). -/
def Dict := List (String × Val)

instance : DecidableEq Dict := inferInstanceAs (DecidableEq (List (String × Val)))

/-- First-match key lookup, as Python dict indexing. -/
def dictLookup (k : String) : Dict → Option Val
  | [] => none
  | (k', v) :: rest => if k' = k then some v else dictLookup k rest

/-- Python's `str` applied to a dict value, as `str.format` would render it. -/
def valToString : Val → String
  | .vstr s => s
  | .vnone => "None"

/-- Observable side effects of the pipeline, recorded in order: each
outbound model invocation and each append to the audit log. -/
inductive Event where
  | invokeModel (prompt : String)
  | appendLog (m : Message)
  deriving DecidableEq, Repr

/-- The process-wide mutable state of `business_advisor_lcel.py`: the
module-level `logs` list, plus the instrumentation trace of events. -/
structure PipeState where
  logs : List Message
  trace : List Event
  deriving DecidableEq, Repr

/-- The state of a fresh process: `logs = []` at module load. -/
def pipeInit : PipeState := ⟨[], []⟩

/-- JSON-like values, the raw shape of a structured-output response
before pydantic validation. -/
inductive JsonV where
  | null
  | str (s : String)
  | num (n : Int)
  | boolean (b : Bool)
  | arr (xs : List JsonV)
  | obj (fields : List (String × JsonV))

/-- The black-box model endpoint (`llm`), out of scope in the source:
`gen` is a plain `llm.invoke` returning a raw message, `genStructured`
is the raw (pre-validation) response of the structured-output call. -/
structure Oracle where
  gen : String → Except PipelineError Message
  genStructured : String → Except PipelineError JsonV

/-- `idea_prompt` rendered with a concrete industry string. -/
def ideaPromptText (industry : String) : String :=
  "You are a startup expert and consultant. Give an innovative business idea for the sector: "
    ++ industry ++ ". Give a name and a short concept."

/-- `analysis_prompt` rendered with a concrete idea text. -/
def analysisPromptText (ideaText : String) : String :=
  "Analyze this business idea. Give 3 strengths and 3 weaknesses: " ++ ideaText

/-- `report_prompt` rendered with a concrete analysed output. -/
def reportPromptText (analysedOutput : String) : String :=
  "Based on the following analysis: " ++ analysedOutput
    ++ ", generate a formal structured report extracting only the key points."

/-- `idea_prompt.invoke(x)`: substitutes `x["industry"]`; a missing
placeholder key is a fatal template-rendering error (`KeyError` from
`str.format`). -/
def renderIdeaPrompt (x : Dict) : Except PipelineError String :=
  match dictLookup "industry" x with
  | some v => .ok (ideaPromptText (valToString v))
  | none => .error .templateRenderError

/-- `analysis_prompt.invoke(x)`: substitutes `x["idea_text"]`. -/
def renderAnalysisPrompt (x : Dict) : Except PipelineError String :=
  match dictLookup "idea_text" x with
  | some v => .ok (analysisPromptText (valToString v))
  | none => .error .templateRenderError

/-- `report_prompt.invoke(x)`: substitutes `x["analysed_output"]`. -/
def renderReportPrompt (x : Dict) : Except PipelineError String :=
  match dictLookup "analysed_output" x with
  | some v => .ok (reportPromptText (valToString v))
  | none => .error .templateRenderError

/-- `parse_and_log_output_chain`: a `RunnableParallel` tee over one raw
message.  Branch `output` runs `StrOutputParser` (extracts `content`);
branch `log` appends the raw message to the module-level `logs` list and
returns `None`.  The next link receives the dict of both branch results. -/
def runParseAndLog (m : Message) (st : PipeState) : Dict × PipeState :=
  ( [("output", .vstr m.content), ("log", .vnone)]
  , { st with logs := st.logs ++ [m], trace := st.trace ++ [.appendLog m] } )

/-- One outbound call of the free-text model (`llm.invoke`): the
invocation itself happens (and is recorded) whether or not the endpoint
then fails. -/
def runLLM (o : Oracle) (prompt : String) (st : PipeState) :
    PipeState × Except PipelineError Message :=
  ({ st with trace := st.trace ++ [.invokeModel prompt] }, o.gen prompt)

/-- `idea_chain = idea_prompt | llm | parse_and_log_output_chain`. -/
def runIdeaChain (o : Oracle) (x : Dict) (st : PipeState) :
    PipeState × Except PipelineError Dict :=
  match renderIdeaPrompt x with
  | .error e => (st, .error e)
  | .ok p =>
    match runLLM o p st with
    | (st1, .error e) => (st1, .error e)
    | (st1, .ok m) =>
      let (d, st2) := runParseAndLog m st1
      (st2, .ok d)

/-- `analysis_chain = analysis_prompt | llm | parse_and_log_output_chain`. -/
def runAnalysisChain (o : Oracle) (x : Dict) (st : PipeState) :
    PipeState × Except PipelineError Dict :=
  match renderAnalysisPrompt x with
  | .error e => (st, .error e)
  | .ok p =>
    match runLLM o p st with
    | (st1, .error e) => (st1, .error e)
    | (st1, .ok m) =>
      let (d, st2) := runParseAndLog m st1
      (st2, .ok d)

/-- The terminal schema: `AnalysisReport` with two `List[str]` fields,
each defaulting to the empty list. -/
structure AnalysisReport where
  strengths : List String
  weaknesses : List String
  deriving DecidableEq, Repr

/-- Validates one JSON value against pydantic's `List[str]`: every
element must be a string; any other element shape is a schema violation,
not coerced. -/
def validateStrElems : List JsonV → Except PipelineError (List String)
  | [] => .ok []
  | .str s :: rest =>
    match validateStrElems rest with
    | .ok ss => .ok (s :: ss)
    | .error e => .error e
  | _ :: _ => .error .schemaViolation

/-- Validates one field of the report: absent fields take the declared
default `[]`; a present field must be a sequence of strings, and any
non-sequence shape fails validation rather than being coerced. -/
def validateStrListField (fields : List (String × JsonV)) (key : String) :
    Except PipelineError (List String) :=
  match fields.lookup key with
  | none => .ok []
  | some (.arr xs) => validateStrElems xs
  | some _ => .error .schemaViolation

/-- pydantic validation of a raw structured-output response against
`AnalysisReport`: the response must be an object; each of the two fields
is validated as a (defaulted) sequence of strings. -/
def validateAnalysisReport : JsonV → Except PipelineError AnalysisReport
  | .obj fields =>
    match validateStrListField fields "strengths" with
    | .error e => .error e
    | .ok s =>
      match validateStrListField fields "weaknesses" with
      | .error e => .error e
      | .ok w => .ok ⟨s, w⟩
  | _ => .error .schemaViolation

/-- `report_chain = report_prompt | llm.with_structured_output(AnalysisReport)`:
renders the report prompt, invokes the model once, and validates the raw
response against the schema; there is no tee, so nothing is logged. -/
def runReportChain (o : Oracle) (x : Dict) (st : PipeState) :
    PipeState × Except PipelineError AnalysisReport :=
  match renderReportPrompt x with
  | .error e => (st, .error e)
  | .ok p =>
    let st1 := { st with trace := st.trace ++ [.invokeModel p] }
    match o.genStructured p with
    | .error e => (st1, .error e)
    | .ok j => (st1, validateAnalysisReport j)

/-- First key-bridging lambda: `lambda x: {"idea_text": x["output"]}`.
A pure dict-to-dict function; `x["output"]` raises `KeyError` when the
source key is absent. -/
def bridge1 (x : Dict) : Except PipelineError Dict :=
  match dictLookup "output" x with
  | some v => .ok [("idea_text", v)]
  | none => .error .keyError

/-- Second key-bridging lambda: `lambda x: {"analysed_output": x["output"]}`. -/
def bridge2 (x : Dict) : Except PipelineError Dict :=
  match dictLookup "output" x with
  | some v => .ok [("analysed_output", v)]
  | none => .error .keyError

/-- A key-bridging lambda as a pipeline step: `RunnableLambda` of a pure
function touches neither the audit log nor the model endpoint. -/
def runBridgeStep (f : Dict → Except PipelineError Dict) (x : Dict)
    (st : PipeState) : PipeState × Except PipelineError Dict :=
  (st, f x)

/-- `e2e_chain.invoke`: the five links in sequence, threading the shared
process state; the first failure aborts the remaining links. -/
def runE2E (o : Oracle) (x : Dict) (st : PipeState) :
    PipeState × Except PipelineError AnalysisReport :=
  match runIdeaChain o x st with
  | (st1, .error e) => (st1, .error e)
  | (st1, .ok d1) =>
    match runBridgeStep bridge1 d1 st1 with
    | (st1', .error e) => (st1', .error e)
    | (st1', .ok d2) =>
      match runAnalysisChain o d2 st1' with
      | (st2, .error e) => (st2, .error e)
      | (st2, .ok d3) =>
        match runBridgeStep bridge2 d3 st2 with
        | (st2', .error e) => (st2', .error e)
        | (st2', .ok d4) => runReportChain o d4 st2'

/-- Repeated invocations of `e2e_chain` within one process: the same
module-level `logs` list is threaded through all of them. -/
def runMany (o : Oracle) (xs : List Dict) (st : PipeState) :
    PipeState × List (Except PipelineError AnalysisReport) :=
  match xs with
  | [] => (st, [])
  | x :: rest =>
    let (st1, r) := runE2E o x st
    let (st2, rs) := runMany o rest st1
    (st2, r :: rs)

/-- Modelled from the spec: the routing variant's outcome.  The routing
logic of `prompt_routing_langGraph.py` is missing from the source (the
file is a starter stub holding only imports and the exercise statement),
so the outcome type follows §6/§7 of the spec: a transformed string or a
distinct, explicit `InvalidAction` indicator callers can branch on. -/
inductive RouteResult where
  | transformed (s : String)
  | invalidAction
  deriving DecidableEq, Repr

/-- Modelled from the spec: the routing variant's entry point, missing
from the source stub.  Per §4.5/§6 it takes an input string and an action
tag, routes `reverse` to string reversal and `upper` to uppercasing, and
sends any unrecognized tag to the explicit `InvalidAction` terminal
rather than a default node. -/
def routeInput (input : String) (action : String) : RouteResult :=
  if action = "reverse" then .transformed (String.mk input.data.reverse)
  else if action = "upper" then .transformed (String.mk (input.data.map Char.toUpper))
  else .invalidAction

/-- Chat message roles used by `Agent.invoke` when building its input. -/
inductive Role where
  | system
  | user
  deriving DecidableEq, Repr

/-- Python truthiness of the optional `context` argument of
`Agent.invoke`: `None` and the empty string are falsy. -/
def contextTruthy : Option String → Bool
  | none => false
  | some c => c ≠ ""

/-- The message list `Agent.invoke` hands to `self.graph.invoke`: the
context (when truthy) as a system message, then the user question. -/
def invokeMessages (question : String) (context : Option String) :
    List (Role × String) :=
  let messages : List (Role × String) := []
  let messages :=
    if contextTruthy context then messages ++ [(Role.system, context.getD "")]
    else messages
  messages ++ [(Role.user, question)]

/-- `Judge.evaluate_tool_usage`: deduplicates both lists into sets,
takes the intersection, and computes precision (appropriateness) and
recall (completeness) with the source's guards for empty sets.  The
first component is TOOL_APPROPRIATENESS, the second TOOL_COMPLETENESS. -/
def evaluate_tool_usage (actual_tools expected_tools : List String) : ℚ × ℚ :=
  let actual := actual_tools.toFinset
  let expected := expected_tools.toFinset
  let correct_calls := actual ∩ expected
  let appropriateness : ℚ :=
    if actual ≠ ∅ then (correct_calls.card : ℚ) / (actual.card : ℚ)
    else if expected = ∅ then 1 else 0
  let completeness : ℚ :=
    if expected ≠ ∅ then (correct_calls.card : ℚ) / (expected.card : ℚ)
    else 1
  (appropriateness, completeness)

/-- A concrete fully-successful endpoint used to instantiate theorems:
free-text calls echo the prompt, and the structured call returns a
well-shaped report object. -/
def testOracle : Oracle where
  gen p := .ok ⟨"resp:" ++ p⟩
  genStructured _ := .ok (.obj [("strengths", .arr [.str "s1"]), ("weaknesses", .arr [])])

/-- A concrete endpoint that answers the first (idea) prompt and then
fails with a transport error, simulating an `EndpointError` at Stage 2. -/
def failOracle : Oracle where
  gen p := if p = ideaPromptText "agro" then .ok ⟨"idea"⟩ else .error .endpointError
  genStructured _ := .error .endpointError

/-- The concrete initial input of the execution block:
`{"industry": "agro"}`. -/
def testInput : Dict := [("industry", .vstr "agro")]

/-- Stage 1's raw response under `testOracle` on `testInput`. -/
def tm1 : Message := ⟨"resp:" ++ ideaPromptText "agro"⟩

/-- Stage 2's raw response under `testOracle` on `testInput`. -/
def tm2 : Message := ⟨"resp:" ++ analysisPromptText tm1.content⟩

/-! ### Helper lemmas -/

theorem bridge1_on_tee (v w : Val) :
    bridge1 [("output", v), ("log", w)] = .ok [("idea_text", v)] := rfl

theorem bridge2_on_tee (v w : Val) :
    bridge2 [("output", v), ("log", w)] = .ok [("analysed_output", v)] := rfl

theorem renderAnalysisPrompt_bridged (s : String) :
    renderAnalysisPrompt [("idea_text", .vstr s)] = .ok (analysisPromptText s) := rfl

theorem renderReportPrompt_bridged (s : String) :
    renderReportPrompt [("analysed_output", .vstr s)] = .ok (reportPromptText s) := rfl

theorem runIdeaChain_ok_inv {o : Oracle} {x : Dict} {st st1 : PipeState} {d : Dict}
    (h : runIdeaChain o x st = (st1, .ok d)) :
    ∃ p m, renderIdeaPrompt x = .ok p ∧ o.gen p = .ok m ∧
      st1 = ⟨st.logs ++ [m], st.trace ++ [.invokeModel p, .appendLog m]⟩ ∧
      d = [("output", .vstr m.content), ("log", .vnone)] := by
  unfold runIdeaChain runLLM runParseAndLog at h
  split at h
  · simp at h
  next p hp =>
    split at h
    · simp at h
    next st' m hm =>
      obtain ⟨hst', hgen⟩ := Prod.mk.injEq .. ▸ hm
      subst hst'
      simp only [] at h
      obtain ⟨h1, h2⟩ := Prod.mk.injEq .. ▸ h
      refine ⟨p, m, hp, hgen, ?_, ?_⟩
      · rw [← h1]
        simp
      · exact (Except.ok.injEq .. ▸ h2).symm

theorem runAnalysisChain_ok_inv {o : Oracle} {x : Dict} {st st1 : PipeState} {d : Dict}
    (h : runAnalysisChain o x st = (st1, .ok d)) :
    ∃ p m, renderAnalysisPrompt x = .ok p ∧ o.gen p = .ok m ∧
      st1 = ⟨st.logs ++ [m], st.trace ++ [.invokeModel p, .appendLog m]⟩ ∧
      d = [("output", .vstr m.content), ("log", .vnone)] := by
  unfold runAnalysisChain runLLM runParseAndLog at h
  split at h
  · simp at h
  next p hp =>
    split at h
    · simp at h
    next st' m hm =>
      obtain ⟨hst', hgen⟩ := Prod.mk.injEq .. ▸ hm
      subst hst'
      simp only [] at h
      obtain ⟨h1, h2⟩ := Prod.mk.injEq .. ▸ h
      refine ⟨p, m, hp, hgen, ?_, ?_⟩
      · rw [← h1]
        simp
      · exact (Except.ok.injEq .. ▸ h2).symm

theorem runReportChain_ok_inv {o : Oracle} {x : Dict} {st st1 : PipeState}
    {r : AnalysisReport} (h : runReportChain o x st = (st1, .ok r)) :
    ∃ p j, renderReportPrompt x = .ok p ∧ o.genStructured p = .ok j ∧
      validateAnalysisReport j = .ok r ∧
      st1 = ⟨st.logs, st.trace ++ [.invokeModel p]⟩ := by
  unfold runReportChain at h
  split at h
  · simp at h
  next p hp =>
    split at h
    · simp at h
    next j hj =>
      obtain ⟨h1, h2⟩ := Prod.mk.injEq .. ▸ h
      exact ⟨p, j, hp, hj, h2, h1.symm⟩

theorem runE2E_ok_inv {o : Oracle} {x : Dict} {st st' : PipeState}
    {r : AnalysisReport} (h : runE2E o x st = (st', .ok r)) :
    ∃ p1 m1 m2 j,
      renderIdeaPrompt x = .ok p1 ∧
      o.gen p1 = .ok m1 ∧
      o.gen (analysisPromptText m1.content) = .ok m2 ∧
      o.genStructured (reportPromptText m2.content) = .ok j ∧
      validateAnalysisReport j = .ok r ∧
      st' = ⟨st.logs ++ [m1, m2],
             st.trace ++ [.invokeModel p1, .appendLog m1,
                          .invokeModel (analysisPromptText m1.content), .appendLog m2,
                          .invokeModel (reportPromptText m2.content)]⟩ := by
  unfold runE2E at h
  split at h
  · simp at h
  next st1 d1 heq1 =>
    obtain ⟨p1, m1, hp1, hm1, hst1, hd1⟩ := runIdeaChain_ok_inv heq1
    subst hd1
    rw [show runBridgeStep bridge1 [("output", Val.vstr m1.content), ("log", Val.vnone)] st1
          = (st1, .ok [("idea_text", Val.vstr m1.content)]) from rfl] at h
    split at h
    · simp_all
    next st1' d2 heq2 =>
      obtain ⟨hst1', hd2⟩ := Prod.mk.injEq .. ▸ heq2
      rw [← hst1', ← (Except.ok.injEq .. ▸ hd2 : _ = d2)] at h
      split at h
      · simp at h
      next st2 d3 heq3 =>
        obtain ⟨p2, m2, hp2, hm2, hst2, hd3⟩ := runAnalysisChain_ok_inv heq3
        subst hd3
        rw [show runBridgeStep bridge2 [("output", Val.vstr m2.content), ("log", Val.vnone)] st2
              = (st2, .ok [("analysed_output", Val.vstr m2.content)]) from rfl] at h
        split at h
        · simp_all
        next st2' d4 heq4 =>
          obtain ⟨hst2', hd4⟩ := Prod.mk.injEq .. ▸ heq4
          rw [← hst2', ← (Except.ok.injEq .. ▸ hd4 : _ = d4)] at h
          obtain ⟨p3, j, hp3, hj, hval, hst'⟩ := runReportChain_ok_inv h
          rw [renderAnalysisPrompt_bridged] at hp2
          rw [renderReportPrompt_bridged] at hp3
          obtain hp2' := (Except.ok.injEq .. ▸ hp2 : _ = p2)
          obtain hp3' := (Except.ok.injEq .. ▸ hp3 : _ = p3)
          subst hp2' hp3'
          refine ⟨p1, m1, m2, j, hp1, hm1, hm2, hj, hval, ?_⟩
          rw [hst', hst2, hst1]
          simp

/-- The fully-successful concrete run evaluates to the expected report. -/
theorem testRun_result : (runE2E testOracle testInput pipeInit).2 =
    .ok ⟨["s1"], []⟩ := rfl

/-! ### Claim theorems -/

/-- Claim C1: after one successful invocation of `e2e_chain` starting
from an empty `logs` list, the audit log contains exactly two entries —
Stage 1's raw response followed by Stage 2's raw response, in invocation
order — and the terminal `report_chain` appends nothing. -/
theorem c1_auditLog_two_entries (o : Oracle) (x : Dict) (st' : PipeState)
    (r : AnalysisReport) (h : runE2E o x pipeInit = (st', .ok r)) :
    ∃ p1 m1 m2,
      renderIdeaPrompt x = .ok p1 ∧ o.gen p1 = .ok m1 ∧
      o.gen (analysisPromptText m1.content) = .ok m2 ∧
      st'.logs = [m1, m2] := by
  obtain ⟨p1, m1, m2, j, hp1, hm1, hm2, hj, hval, hst'⟩ := runE2E_ok_inv h
  exact ⟨p1, m1, m2, hp1, hm1, hm2, by rw [hst']; simp [pipeInit]⟩

theorem c1_witness :
    ∃ p1 m1 m2,
      renderIdeaPrompt testInput = .ok p1 ∧ testOracle.gen p1 = .ok m1 ∧
      testOracle.gen (analysisPromptText m1.content) = .ok m2 ∧
      ((runE2E testOracle testInput pipeInit).1).logs = [m1, m2] :=
  c1_auditLog_two_entries testOracle testInput
    (runE2E testOracle testInput pipeInit).1 ⟨["s1"], []⟩ rfl

/-- Claim C2: when Stage 2's model invocation fails with an
`EndpointError`, the audit log holds exactly one entry (Stage 1's raw
response), the trace shows no further invocation after Stage 2's, and
the pipeline propagates the same error instead of returning a report. -/
theorem c2_stage2_endpoint_error (o : Oracle) (x : Dict) (p1 : String)
    (m1 : Message) (h1 : renderIdeaPrompt x = .ok p1)
    (h2 : o.gen p1 = .ok m1)
    (h3 : o.gen (analysisPromptText m1.content) = .error .endpointError) :
    runE2E o x pipeInit =
      (⟨[m1], [.invokeModel p1, .appendLog m1,
               .invokeModel (analysisPromptText m1.content)]⟩,
       .error .endpointError) := by
  simp only [runE2E, runIdeaChain, runAnalysisChain, runLLM, runParseAndLog,
    runBridgeStep, h1, h2, bridge1_on_tee, renderAnalysisPrompt_bridged, h3]
  simp [pipeInit]

theorem c2_witness :
    runE2E failOracle testInput pipeInit =
      (⟨[⟨"idea"⟩], [.invokeModel (ideaPromptText "agro"), .appendLog ⟨"idea"⟩,
                     .invokeModel (analysisPromptText "idea")]⟩,
       .error .endpointError) :=
  c2_stage2_endpoint_error failOracle testInput (ideaPromptText "agro")
    ⟨"idea"⟩ rfl rfl rfl

/-- Claim C5: the event trace of a run in which Stages 1 and 2 succeed
shows each audit-log append strictly before the next stage's model
invocation: invoke 1, append 1, invoke 2, append 2, invoke 3; logging is
never deferred past the start of the next stage. -/
theorem c5_append_before_next_invoke (o : Oracle) (x : Dict) (p1 : String)
    (m1 m2 : Message) (h1 : renderIdeaPrompt x = .ok p1)
    (h2 : o.gen p1 = .ok m1)
    (h3 : o.gen (analysisPromptText m1.content) = .ok m2) :
    ((runE2E o x pipeInit).1).trace =
      [.invokeModel p1, .appendLog m1,
       .invokeModel (analysisPromptText m1.content), .appendLog m2,
       .invokeModel (reportPromptText m2.content)] := by
  simp only [runE2E, runIdeaChain, runAnalysisChain, runReportChain, runLLM,
    runParseAndLog, runBridgeStep, h1, h2, h3, bridge1_on_tee, bridge2_on_tee,
    renderAnalysisPrompt_bridged, renderReportPrompt_bridged]
  rcases hj : o.genStructured (reportPromptText m2.content) with e | j <;>
    simp [hj, pipeInit]

theorem c5_witness :
    ((runE2E testOracle testInput pipeInit).1).trace =
      [.invokeModel (ideaPromptText "agro"), .appendLog tm1,
       .invokeModel (analysisPromptText tm1.content), .appendLog tm2,
       .invokeModel (reportPromptText tm2.content)] :=
  c5_append_before_next_invoke testOracle testInput (ideaPromptText "agro")
    tm1 tm2 rfl rfl rfl

/-- Claim C3: a successful pipeline run returns an `AnalysisReport`
validated from the structured stage's raw response (its fields are total
lists of strings by construction); a response omitting a field yields
the declared default `[]`, while a field of non-sequence shape fails
schema validation instead of being coerced. -/
theorem c3_report_fields_validated :
    (∀ (o : Oracle) (x : Dict) (st st' : PipeState) (r : AnalysisReport),
       runE2E o x st = (st', .ok r) →
       ∃ p j, o.genStructured p = .ok j ∧ validateAnalysisReport j = .ok r) ∧
    (∀ (fields : List (String × JsonV)) (r : AnalysisReport),
       validateAnalysisReport (.obj fields) = .ok r →
       (fields.lookup "strengths" = none → r.strengths = []) ∧
       (fields.lookup "weaknesses" = none → r.weaknesses = [])) ∧
    (∀ (fields : List (String × JsonV)) (j : JsonV),
       fields.lookup "strengths" = some j → (∀ xs, j ≠ .arr xs) →
       validateAnalysisReport (.obj fields) = .error .schemaViolation) := by
  refine ⟨?_, ?_, ?_⟩
  · intro o x st st' r h
    obtain ⟨p1, m1, m2, j, hp1, hm1, hm2, hj, hval, hst'⟩ := runE2E_ok_inv h
    exact ⟨_, j, hj, hval⟩
  · intro fields r h
    simp only [validateAnalysisReport] at h
    split at h
    · simp at h
    next s hs =>
      split at h
      · simp at h
      next w hw =>
        injection h with hr
        subst hr
        constructor
        · intro hnone
          have hv : validateStrListField fields "strengths" = .ok [] := by
            unfold validateStrListField; rw [hnone]
          rw [hv] at hs
          injection hs with hse
          exact hse.symm
        · intro hnone
          have hv : validateStrListField fields "weaknesses" = .ok [] := by
            unfold validateStrListField; rw [hnone]
          rw [hv] at hw
          injection hw with hwe
          exact hwe.symm
  · intro fields j hj hnotarr
    have hv : validateStrListField fields "strengths" = .error .schemaViolation := by
      unfold validateStrListField
      rw [hj]
      rcases j with _ | s | n | b | xs | fs
      · rfl
      · rfl
      · rfl
      · rfl
      · exact absurd rfl (hnotarr xs)
      · rfl
    simp only [validateAnalysisReport, hv]

theorem c3_witness :
    (∃ p j, testOracle.genStructured p = .ok j ∧
       validateAnalysisReport j = .ok ⟨["s1"], []⟩) ∧
    (⟨[], []⟩ : AnalysisReport).strengths = [] ∧
    validateAnalysisReport (.obj [("strengths", .str "x")]) =
      .error .schemaViolation := by
  refine ⟨?_, ?_, ?_⟩
  · exact c3_report_fields_validated.1 testOracle testInput pipeInit
      (runE2E testOracle testInput pipeInit).1 ⟨["s1"], []⟩ rfl
  · exact (c3_report_fields_validated.2.1 [] ⟨[], []⟩ rfl).1 rfl
  · exact c3_report_fields_validated.2.2 [("strengths", .str "x")] (.str "x")
      rfl (fun xs h => JsonV.noConfusion h)

/-- Claim C4 (counterexample): the key-bridging lambda is not
idempotent.  On the state `{"output": "v"}` one application succeeds,
but composing it with itself fails with a `KeyError` because the
bridge's output lacks the source key `"output"`. -/
theorem c4_counterexample :
    ¬ (Except.bind (bridge1 [("output", Val.vstr "v")]) bridge1
        = bridge1 [("output", Val.vstr "v")]) := by
  intro h
  have h1 : Except.bind (bridge1 [("output", Val.vstr "v")]) bridge1
      = (.error .keyError : Except PipelineError Dict) := rfl
  have h2 : bridge1 [("output", Val.vstr "v")]
      = (.ok [("idea_text", Val.vstr "v")] : Except PipelineError Dict) := rfl
  rw [h1, h2] at h
  exact Except.noConfusion h

/-- Claim C4 (amended): each key-bridging lambda maps any state holding
the source key `"output"` to the single-entry state binding its target
key to the same value; a second application then fails with a
`KeyError` (its output no longer holds the source key), so the bridge
is not idempotent. -/
theorem c4_bridge_rename_not_idempotent (x : Dict) (v : Val)
    (h : dictLookup "output" x = some v) :
    bridge1 x = .ok [("idea_text", v)] ∧
    Except.bind (bridge1 x) bridge1 = .error .keyError ∧
    bridge2 x = .ok [("analysed_output", v)] ∧
    Except.bind (bridge2 x) bridge2 = .error .keyError := by
  have hb1 : bridge1 x = .ok [("idea_text", v)] := by
    unfold bridge1; rw [h]
  have hb2 : bridge2 x = .ok [("analysed_output", v)] := by
    unfold bridge2; rw [h]
  refine ⟨hb1, ?_, hb2, ?_⟩
  · rw [hb1]
    rfl
  · rw [hb2]
    rfl

theorem c4_witness :
    bridge1 [("output", Val.vstr "w")] = .ok [("idea_text", Val.vstr "w")] ∧
    Except.bind (bridge1 [("output", Val.vstr "w")]) bridge1 = .error .keyError ∧
    bridge2 [("output", Val.vstr "w")] = .ok [("analysed_output", Val.vstr "w")] ∧
    Except.bind (bridge2 [("output", Val.vstr "w")]) bridge2 = .error .keyError :=
  c4_bridge_rename_not_idempotent [("output", Val.vstr "w")] (Val.vstr "w") rfl

/-- Claim C6: a key-bridging lambda, run as a pipeline step, leaves the
whole process state untouched — audit log and event trace (hence model
invocations) unchanged — and its output depends only on the dict, not
on the state: it is purely structural. -/
theorem c6_bridge_step_frame : ∀ (x : Dict) (st : PipeState),
    ((runBridgeStep bridge1 x st).1.logs = st.logs ∧
     (runBridgeStep bridge1 x st).1.trace = st.trace) ∧
    ((runBridgeStep bridge2 x st).1.logs = st.logs ∧
     (runBridgeStep bridge2 x st).1.trace = st.trace) ∧
    (∀ st2, (runBridgeStep bridge1 x st).2 = (runBridgeStep bridge1 x st2).2 ∧
            (runBridgeStep bridge2 x st).2 = (runBridgeStep bridge2 x st2).2) :=
  fun _ _ => ⟨⟨rfl, rfl⟩, ⟨rfl, rfl⟩, fun _ => ⟨rfl, rfl⟩⟩

/-- Claim C7: the routing variant reverses under the `reverse` action and
uppercases under `upper`; every action tag outside the known set
(`"delete"` among them) yields the distinct, explicit `InvalidAction`
outcome for every input — it neither crashes (the function is total) nor
passes any string through as a `transformed` result. -/
theorem c7_routing_behaviour :
    routeInput "hello" "reverse" = .transformed "olleh" ∧
    routeInput "hello" "upper" = .transformed "HELLO" ∧
    (∀ (input action : String), action ≠ "reverse" → action ≠ "upper" →
      routeInput input action = .invalidAction) ∧
    routeInput "hello" "delete" = .invalidAction ∧
    (∀ s, RouteResult.invalidAction ≠ RouteResult.transformed s) := by
  refine ⟨rfl, by decide, ?_, rfl, fun s h => RouteResult.noConfusion h⟩
  intro input action h1 h2
  unfold routeInput
  rw [if_neg h1, if_neg h2]

theorem runIdeaChain_logs (o : Oracle) (x : Dict) (st : PipeState) :
    ∃ d, ((runIdeaChain o x st).1).logs = st.logs ++ d := by
  unfold runIdeaChain runLLM runParseAndLog
  split
  · exact ⟨[], by simp⟩
  · split
    next st1 e hm =>
      obtain ⟨h1, _⟩ := Prod.mk.injEq .. ▸ hm
      exact ⟨[], by rw [← h1]; simp⟩
    next st1 m hm =>
      obtain ⟨h1, _⟩ := Prod.mk.injEq .. ▸ hm
      refine ⟨[m], ?_⟩
      show st1.logs ++ [m] = st.logs ++ [m]
      rw [← h1]

theorem runAnalysisChain_logs (o : Oracle) (x : Dict) (st : PipeState) :
    ∃ d, ((runAnalysisChain o x st).1).logs = st.logs ++ d := by
  unfold runAnalysisChain runLLM runParseAndLog
  split
  · exact ⟨[], by simp⟩
  · split
    next st1 e hm =>
      obtain ⟨h1, _⟩ := Prod.mk.injEq .. ▸ hm
      exact ⟨[], by rw [← h1]; simp⟩
    next st1 m hm =>
      obtain ⟨h1, _⟩ := Prod.mk.injEq .. ▸ hm
      refine ⟨[m], ?_⟩
      show st1.logs ++ [m] = st.logs ++ [m]
      rw [← h1]

theorem runReportChain_logs (o : Oracle) (x : Dict) (st : PipeState) :
    ((runReportChain o x st).1).logs = st.logs := by
  unfold runReportChain
  split
  · rfl
  · split
    · rfl
    · rfl

theorem runE2E_logs_extend (o : Oracle) (x : Dict) (st : PipeState) :
    ∃ d, ((runE2E o x st).1).logs = st.logs ++ d := by
  unfold runE2E
  split
  next st1 e heq =>
    obtain ⟨d1, hd1⟩ := runIdeaChain_logs o x st
    rw [heq] at hd1
    exact ⟨d1, hd1⟩
  next st1 d1 heq =>
    obtain ⟨e1, he1⟩ := runIdeaChain_logs o x st
    rw [heq] at he1
    have he1' : st1.logs = st.logs ++ e1 := he1
    simp only [runBridgeStep]
    split
    next st1' e heqb =>
      obtain ⟨hb1, _⟩ := Prod.mk.injEq .. ▸ heqb
      exact ⟨e1, by rw [← hb1]; exact he1'⟩
    next st1' d2 heqb =>
      obtain ⟨hb1, _⟩ := Prod.mk.injEq .. ▸ heqb
      split
      next st2 e heq2 =>
        obtain ⟨e2, he2⟩ := runAnalysisChain_logs o d2 st1'
        rw [heq2] at he2
        have he2' : st2.logs = st1'.logs ++ e2 := he2
        refine ⟨e1 ++ e2, ?_⟩
        show st2.logs = st.logs ++ (e1 ++ e2)
        rw [he2', ← hb1, he1', List.append_assoc]
      next st2 d3 heq2 =>
        obtain ⟨e2, he2⟩ := runAnalysisChain_logs o d2 st1'
        rw [heq2] at he2
        have he2' : st2.logs = st1'.logs ++ e2 := he2
        split
        next st2' e heqb2 =>
          obtain ⟨hb2, _⟩ := Prod.mk.injEq .. ▸ heqb2
          refine ⟨e1 ++ e2, ?_⟩
          show st2'.logs = st.logs ++ (e1 ++ e2)
          rw [← hb2, he2', ← hb1, he1', List.append_assoc]
        next st2' d4 heqb2 =>
          obtain ⟨hb2, _⟩ := Prod.mk.injEq .. ▸ heqb2
          refine ⟨e1 ++ e2, ?_⟩
          show ((runReportChain o d4 st2').1).logs = st.logs ++ (e1 ++ e2)
          rw [runReportChain_logs, ← hb2, he2', ← hb1, he1', List.append_assoc]

theorem runE2E_ok_logs_len {o : Oracle} {x : Dict} {st st' : PipeState}
    {r : AnalysisReport} (h : runE2E o x st = (st', .ok r)) :
    st'.logs.length = st.logs.length + 2 := by
  obtain ⟨p1, m1, m2, j, _, _, _, _, _, hst'⟩ := runE2E_ok_inv h
  rw [hst']
  simp

theorem runMany_all_ok_length (o : Oracle) (xs : List Dict) :
    ∀ (st st' : PipeState) (rs : List (Except PipelineError AnalysisReport)),
      runMany o xs st = (st', rs) → (∀ r ∈ rs, ∃ a, r = .ok a) →
      st'.logs.length = st.logs.length + 2 * xs.length := by
  induction xs with
  | nil =>
    intro st st' rs h _
    obtain ⟨h1, _⟩ := Prod.mk.injEq .. ▸ h
    rw [← h1]
    simp
  | cons x rest ih =>
    intro st st' rs h hall
    unfold runMany at h
    rcases hE : runE2E o x st with ⟨st1, r⟩
    rw [hE] at h
    simp only [] at h
    rcases hM : runMany o rest st1 with ⟨st2, rs'⟩
    rw [hM] at h
    simp only [] at h
    obtain ⟨h1, h2⟩ := Prod.mk.injEq .. ▸ h
    obtain ⟨a, ha⟩ := hall r (by rw [← h2]; exact List.mem_cons_self r rs')
    subst ha
    have hlen1 := runE2E_ok_logs_len hE
    have hlen2 := ih st1 st2 rs' hM
      (fun r' hr' => hall r' (by rw [← h2]; exact List.mem_cons_of_mem _ hr'))
    rw [← h1, hlen2, hlen1]
    simp only [List.length_cons]
    ring

/-- Claim C8: the audit log is shared, append-only state: every pipeline
invocation only extends it (never removes or replaces an entry), and any
number of successful end-to-end invocations in a fresh process leave it
with exactly two entries per invocation, accumulated across runs. -/
theorem c8_auditLog_append_only :
    (∀ (o : Oracle) (x : Dict) (st : PipeState),
       ∃ d, ((runE2E o x st).1).logs = st.logs ++ d) ∧
    (∀ (o : Oracle) (xs : List Dict) (st' : PipeState)
       (rs : List (Except PipelineError AnalysisReport)),
       runMany o xs pipeInit = (st', rs) → (∀ r ∈ rs, ∃ a, r = .ok a) →
       st'.logs.length = 2 * xs.length) := by
  refine ⟨runE2E_logs_extend, fun o xs st' rs h hall => ?_⟩
  have := runMany_all_ok_length o xs pipeInit st' rs h hall
  simpa [pipeInit] using this

theorem c8_witness :
    (∃ d, ((runE2E testOracle testInput pipeInit).1).logs = pipeInit.logs ++ d) ∧
    ((runMany testOracle [testInput, testInput] pipeInit).1).logs.length =
      2 * ([testInput, testInput] : List Dict).length := by
  constructor
  · exact c8_auditLog_append_only.1 testOracle testInput pipeInit
  · refine c8_auditLog_append_only.2 testOracle [testInput, testInput]
      (runMany testOracle [testInput, testInput] pipeInit).1
      (runMany testOracle [testInput, testInput] pipeInit).2 rfl ?_
    intro r hr
    have hrs : (runMany testOracle [testInput, testInput] pipeInit).2 =
        [.ok ⟨["s1"], []⟩, .ok ⟨["s1"], []⟩] := rfl
    rw [hrs] at hr
    rcases List.mem_cons.mp hr with h1 | hr2
    · exact ⟨_, h1⟩
    rcases List.mem_cons.mp hr2 with h1 | hr3
    · exact ⟨_, h1⟩
    · cases hr3

/-- Claim C9: `Judge.evaluate_tool_usage` returns appropriateness and
completeness scores in [0, 1]; both-empty inputs give appropriateness 1,
empty-actual with non-empty-expected gives 0, empty-expected gives
completeness 1; and the result depends only on the sets of names, so it
is invariant under duplication and reordering of either list. -/
theorem c9_evaluate_tool_usage_props : ∀ (a e : List String),
    (0 ≤ (evaluate_tool_usage a e).1 ∧ (evaluate_tool_usage a e).1 ≤ 1) ∧
    (0 ≤ (evaluate_tool_usage a e).2 ∧ (evaluate_tool_usage a e).2 ≤ 1) ∧
    (a = [] → e = [] → (evaluate_tool_usage a e).1 = 1) ∧
    (a = [] → e ≠ [] → (evaluate_tool_usage a e).1 = 0) ∧
    (e = [] → (evaluate_tool_usage a e).2 = 1) ∧
    (∀ a' e', a.toFinset = a'.toFinset → e.toFinset = e'.toFinset →
      evaluate_tool_usage a e = evaluate_tool_usage a' e') := by
  have hdiv : ∀ (C D : Finset String), C ⊆ D → D ≠ ∅ →
      0 ≤ (C.card : ℚ) / (D.card : ℚ) ∧ (C.card : ℚ) / (D.card : ℚ) ≤ 1 := by
    intro C D hCD hD
    have hpos : (0 : ℚ) < (D.card : ℚ) := by
      exact_mod_cast Finset.card_pos.mpr (Finset.nonempty_iff_ne_empty.mpr hD)
    constructor
    · positivity
    · rw [div_le_one hpos]
      exact_mod_cast Finset.card_le_card hCD
  intro a e
  refine ⟨?_, ?_, ?_, ?_, ?_, ?_⟩
  · simp only [evaluate_tool_usage]
    split_ifs with h1 h2
    · exact hdiv _ _ Finset.inter_subset_left h1
    · norm_num
    · norm_num
  · simp only [evaluate_tool_usage]
    split_ifs with h1
    · exact hdiv _ _ Finset.inter_subset_right h1
    · norm_num
  · intro ha he
    subst ha he
    simp [evaluate_tool_usage]
  · intro ha he
    subst ha
    simp [evaluate_tool_usage, List.toFinset_eq_empty_iff, he]
  · intro he
    subst he
    simp [evaluate_tool_usage]
  · intro a' e' ha he
    simp only [evaluate_tool_usage]
    rw [ha, he]

theorem c9_witness :
    (0 ≤ (evaluate_tool_usage ["t1", "t1", "t2"] ["t2", "t3"]).1 ∧
      (evaluate_tool_usage ["t1", "t1", "t2"] ["t2", "t3"]).1 ≤ 1) ∧
    (evaluate_tool_usage [] []).1 = 1 ∧
    (evaluate_tool_usage [] ["t1"]).1 = 0 ∧
    (evaluate_tool_usage ["t1"] []).2 = 1 ∧
    evaluate_tool_usage ["t1", "t1", "t2"] ["t2", "t3"] =
      evaluate_tool_usage ["t2", "t1"] ["t3", "t3", "t2"] := by
  refine ⟨(c9_evaluate_tool_usage_props ["t1", "t1", "t2"] ["t2", "t3"]).1,
    (c9_evaluate_tool_usage_props [] []).2.2.1 rfl rfl,
    (c9_evaluate_tool_usage_props [] ["t1"]).2.2.2.1 rfl (by simp),
    (c9_evaluate_tool_usage_props ["t1"] []).2.2.2.2.1 rfl,
    (c9_evaluate_tool_usage_props ["t1", "t1", "t2"] ["t2", "t3"]).2.2.2.2.2
      ["t2", "t1"] ["t3", "t3", "t2"] (by decide) (by decide)⟩

/-- Claim C10: `Agent.invoke` builds its message list deterministically:
a falsy context (None or empty) yields exactly the user question as the
single message; a non-empty context yields exactly two messages, the
context as a system message strictly before the user question. -/
theorem c10_invoke_messages : ∀ (q : String) (ctx : Option String),
    (contextTruthy ctx = false → invokeMessages q ctx = [(Role.user, q)]) ∧
    (∀ c, ctx = some c → c ≠ "" →
      invokeMessages q ctx = [(Role.system, c), (Role.user, q)]) := by
  intro q ctx
  constructor
  · intro h
    simp [invokeMessages, h]
  · intro c hc hne
    subst hc
    simp [invokeMessages, contextTruthy, hne]

theorem c10_witness :
    invokeMessages "q" none = [(Role.user, "q")] ∧
    invokeMessages "q" (some "") = [(Role.user, "q")] ∧
    invokeMessages "q" (some "ctx") = [(Role.system, "ctx"), (Role.user, "q")] :=
  ⟨(c10_invoke_messages "q" none).1 rfl,
   (c10_invoke_messages "q" (some "")).1 (by decide),
   (c10_invoke_messages "q" (some "ctx")).2 "ctx" rfl (by decide)⟩

end Langchain101
